import Mathlib

/-!
Verification of the session-state core of `streamlit_app.py` (BioVision
Analytics demo): the label-class registry (add / remove handlers), the
seeded session state, and the batch-analysis handler.

The embedding is shallow: Python list manipulation over the mutable
session dictionary becomes explicit state passing over Lean lists; the
pseudo-random source (`np.random.randint` / `np.random.uniform`) is
abstracted as value streams constrained by numpy's contracts (an integer
drawn from `[50, 200)`, a real drawn from `[0.2, 0.9)`, the latter
modelled over `ℚ`).
-/

/-- An annotation class, one element of `st.session_state.classes`:
a dict `{"name": ..., "color": ...}`. -/
structure AnnotationClass where
  name : String
  color : String
deriving DecidableEq, Repr

/-- A deployed model, one element of `st.session_state.models`. -/
structure DeployedModel where
  name : String
  author : String
  type : String
  accuracy : String
deriving DecidableEq, Repr

/-- One row of the batch-result table built by the Start Analysis loop:
`{"Filename": ..., "Cell_Count": ..., "Avg_Intensity": ...}`. -/
structure BatchRow where
  filename : String
  cell_count : Nat
  avg_intensity : ℚ
deriving DecidableEq, Repr

/-- The per-session state: `st.session_state.models`,
`st.session_state.generated_data` (absent until the first batch run,
modelled as `Option`), and `st.session_state.classes`. -/
structure SessionState where
  models : List DeployedModel
  generated_data : Option (List BatchRow)
  classes : List AnnotationClass
deriving DecidableEq, Repr

/-- The session state after the initialization block (lines 13 to 27 of
the source): two seeded models, no batch result, and the three seeded
classes Nuclei / blue (`#0000FF`), Cytoplasm / yellow (`#FFFF00`),
Background / red (`#FF0000`). -/
def initialSession : SessionState where
  models := [⟨"Nuclei Counter v1", "System", "Nuclei", "94%"⟩,
             ⟨"Cytoplasm Segmenter", "System", "Cytoplasm", "89%"⟩]
  generated_data := none
  classes := [⟨"Nuclei", "#0000FF"⟩,
              ⟨"Cytoplasm", "#FFFF00"⟩,
              ⟨"Background", "#FF0000"⟩]

/-- The one domain error of the core: the Add Class handler rejects a
name that already exists (`st.error("Class already exists!")`). -/
inductive AddError where
  | duplicateName
deriving DecidableEq, Repr

/-- The Add Class handler (lines 78 to 83): if any existing class has
the given name the action is rejected, otherwise the new class is
appended at the end. -/
def addClass (classes : List AnnotationClass) (name color : String) :
    Except AddError (List AnnotationClass) :=
  if classes.any (fun c => c.name == name) then
    Except.error AddError.duplicateName
  else
    Except.ok (classes ++ [⟨name, color⟩])

/-- The Remove handler (line 65): keep every class whose name differs
from the given one (a filter, not an assert-and-delete). -/
def removeClass (classes : List AnnotationClass) (name : String) :
    List AnnotationClass :=
  classes.filter (fun c => c.name != name)

/-- The user actions that mutate the registry. -/
inductive RegOp where
  | add (name color : String)
  | remove (name : String)
deriving DecidableEq, Repr

/-- Effect of one registry action on the session's class list; a
rejected add leaves the list untouched. -/
def applyOp (classes : List AnnotationClass) : RegOp → List AnnotationClass
  | RegOp.add name color =>
      match addClass classes name color with
      | Except.ok updated => updated
      | Except.error _ => classes
  | RegOp.remove name => removeClass classes name

/-- Effect of a sequence of registry actions, applied left to right. -/
def applyOps (classes : List AnnotationClass) (ops : List RegOp) :
    List AnnotationClass :=
  ops.foldl applyOp classes

/-- The `class_options` list (line 53): the names of the classes, in
registry order. -/
def class_options (classes : List AnnotationClass) : List String :=
  classes.map (fun c => c.name)

/-- The Start Analysis loop body (lines 156 to 164): one `BatchRow` per
uploaded file, drawing the i-th integer and real from the random
streams, with `i` the enumeration index. -/
def startAnalysisRows (randInt : Nat → Nat) (randUniform : Nat → ℚ) :
    Nat → List String → List BatchRow
  | _, [] => []
  | i, file :: rest =>
      ⟨file, randInt i, randUniform i⟩ ::
        startAnalysisRows randInt randUniform (i + 1) rest

/-- The assignment `st.session_state.generated_data = pd.DataFrame(data_rows)`
(line 166): unconditionally overwrite the stored batch result. -/
def replace_batch_result (s : SessionState) (table : List BatchRow) :
    SessionState :=
  { s with generated_data := some table }

/-- The Start Analysis handler (lines 150 to 167): with no uploaded
files only a warning is shown and the state is left untouched;
otherwise the generated table replaces the stored batch result. The
selected model (line 142) is in scope but never read by the loop. -/
def startAnalysisHandler (selected_model : String)
    (uploaded_files : List String) (randInt : Nat → Nat)
    (randUniform : Nat → ℚ) (s : SessionState) : SessionState :=
  if uploaded_files.isEmpty then s
  else replace_batch_result s (startAnalysisRows randInt randUniform 0 uploaded_files)

/-- One registry action preserves name-uniqueness: a rejected add and a
remove keep (a sublist of) the old list, and an accepted add appends a
name that the duplicate check just ruled out. -/
lemma names_nodup_applyOp (classes : List AnnotationClass) (op : RegOp)
    (h : (classes.map AnnotationClass.name).Nodup) :
    ((applyOp classes op).map AnnotationClass.name).Nodup := by
  cases op with
  | add name color =>
      rcases hdup : classes.any (fun c => c.name == name) with _ | _
      · have hnotmem : name ∉ classes.map AnnotationClass.name := by
          intro hmem
          rcases List.mem_map.mp hmem with ⟨c, hc, hcname⟩
          have : classes.any (fun c => c.name == name) = true :=
            List.any_eq_true.mpr ⟨c, hc, by simp [hcname]⟩
          simp [hdup] at this
        simp only [applyOp, addClass, hdup, if_neg Bool.false_ne_true]
        simpa [List.nodup_append] using And.intro h hnotmem
      · simp only [applyOp, addClass, hdup, if_pos rfl]
        exact h
  | remove name =>
      have hsub : List.Sublist ((removeClass classes name).map AnnotationClass.name)
          (classes.map AnnotationClass.name) :=
        List.Sublist.map AnnotationClass.name (List.filter_sublist classes)
      exact List.Nodup.sublist hsub h

/-- A sequence of registry actions preserves name-uniqueness. -/
lemma names_nodup_applyOps (ops : List RegOp)
    (classes : List AnnotationClass)
    (h : (classes.map AnnotationClass.name).Nodup) :
    ((applyOps classes ops).map AnnotationClass.name).Nodup := by
  induction ops generalizing classes with
  | nil => exact h
  | cons op rest ih => exact ih (applyOp classes op) (names_nodup_applyOp classes op h)

/-- Claim C1: every registry state reachable from the seeded default by
add and remove actions has pairwise-distinct class names. -/
theorem registry_names_nodup (ops : List RegOp) :
    ((applyOps initialSession.classes ops).map AnnotationClass.name).Nodup :=
  names_nodup_applyOps ops initialSession.classes (by decide)

/-- Claim C4: a freshly initialized session has exactly the three
seeded classes "Nuclei" (blue `#0000FF`), "Cytoplasm" (yellow
`#FFFF00`), "Background" (red `#FF0000`) in that order, exactly two
seeded models, and no batch result. -/
theorem initial_session_seeded :
    initialSession.classes = [⟨"Nuclei", "#0000FF"⟩,
                              ⟨"Cytoplasm", "#FFFF00"⟩,
                              ⟨"Background", "#FF0000"⟩]
      ∧ initialSession.models.length = 2
      ∧ initialSession.generated_data = none :=
  ⟨rfl, rfl, rfl⟩

/-- Claim C6: `replace_batch_result` unconditionally overwrites: after
storing table `t1` and then table `t2`, the session holds exactly `t2`. -/
theorem replace_batch_result_overwrites (s : SessionState)
    (t1 t2 : List BatchRow) :
    (replace_batch_result (replace_batch_result s t1) t2).generated_data
      = some t2 :=
  rfl

/-- Claim C9: the batch table is independent of the selected model: two
runs over the same files with the same random streams but different
selected models produce identical session states. -/
theorem batch_independent_of_model (m1 m2 : String)
    (uploaded_files : List String) (randInt : Nat → Nat)
    (randUniform : Nat → ℚ) (s : SessionState) :
    startAnalysisHandler m1 uploaded_files randInt randUniform s
      = startAnalysisHandler m2 uploaded_files randInt randUniform s :=
  rfl

/-- Claim C10: triggering a batch run with an empty upload list takes
the warning branch and leaves the whole session state, in particular
any previously stored batch result, unchanged. -/
theorem empty_upload_keeps_result (selected_model : String)
    (randInt : Nat → Nat) (randUniform : Nat → ℚ) (s : SessionState) :
    startAnalysisHandler selected_model [] randInt randUniform s = s :=
  rfl

/-- Claim C2: adding a name already present fails with the duplicate
error and leaves the registry unchanged; on a fresh name the first add
succeeds, grows the registry by exactly one, and a second add of the
same name (any color) fails. -/
theorem add_duplicate_behavior (classes : List AnnotationClass)
    (name color color2 : String) :
    (classes.any (fun c => c.name == name) = true →
        addClass classes name color = Except.error AddError.duplicateName
          ∧ applyOp classes (RegOp.add name color) = classes)
      ∧ (classes.any (fun c => c.name == name) = false →
        addClass classes name color
            = Except.ok (classes ++ [(⟨name, color⟩ : AnnotationClass)])
          ∧ (classes ++ [(⟨name, color⟩ : AnnotationClass)]).length
              = classes.length + 1
          ∧ addClass (classes ++ [(⟨name, color⟩ : AnnotationClass)]) name color2
              = Except.error AddError.duplicateName) := by
  constructor
  · intro h
    constructor
    · simp [addClass, h]
    · simp [applyOp, addClass, h]
  · intro h
    refine ⟨by simp [addClass, h], by simp, ?_⟩
    have hdup : (classes ++ [(⟨name, color⟩ : AnnotationClass)]).any
        (fun c => c.name == name) = true := by
      simp [List.any_append]
    simp [addClass, hdup]

/-- Witness for C2 on the seeded registry: a duplicate "Nuclei" is
rejected without touching the state, and a fresh "Mitochondria" is
appended at the end. -/
theorem add_duplicate_behavior_witness :
    (addClass initialSession.classes "Nuclei" "#123456"
          = Except.error AddError.duplicateName
        ∧ applyOp initialSession.classes (RegOp.add "Nuclei" "#123456")
          = initialSession.classes)
      ∧ addClass initialSession.classes "Mitochondria" "#00FF00"
          = Except.ok (initialSession.classes
              ++ [(⟨"Mitochondria", "#00FF00"⟩ : AnnotationClass)]) :=
  ⟨(add_duplicate_behavior initialSession.classes "Nuclei" "#123456" "#000000").1
      (by decide),
   ((add_duplicate_behavior initialSession.classes "Mitochondria" "#00FF00" "#123456").2
      (by decide)).1⟩

/-- Claim C3: removing the same name twice equals removing it once; on
the empty registry, or when no class has the name, remove is a no-op
(and it returns normally rather than raising). -/
theorem remove_idempotent_noop (classes : List AnnotationClass) (name : String) :
    removeClass (removeClass classes name) name = removeClass classes name
      ∧ removeClass ([] : List AnnotationClass) name = []
      ∧ (classes.any (fun c => c.name == name) = false →
          removeClass classes name = classes) := by
  refine ⟨?_, rfl, ?_⟩
  · apply List.filter_eq_self.mpr
    intro a ha
    have ha2 : a ∈ List.filter (fun c => c.name != name) classes := ha
    exact (List.mem_filter.mp ha2).2
  · intro h
    apply List.filter_eq_self.mpr
    intro a ha
    have : (a.name == name) = false := by
      rcases hb : (a.name == name) with _ | _
      · rfl
      · have : classes.any (fun c => c.name == name) = true :=
          List.any_eq_true.mpr ⟨a, ha, hb⟩
        simp [h] at this
    simp [bne, this]

/-- Witness for C3 on the seeded registry: removing the absent name
"Mitochondria" leaves the three seeded classes untouched. -/
theorem remove_idempotent_noop_witness :
    removeClass initialSession.classes "Mitochondria" = initialSession.classes :=
  (remove_idempotent_noop initialSession.classes "Mitochondria").2.2 (by decide)

/-- Claim C5 counterexample: one add whose (pairwise-distinct) name
"Nuclei" already sits in the seeded registry is rejected, so the length
stays 3 instead of growing to initial length plus the number of adds. -/
theorem adds_length_counterexample :
    ([("Nuclei", "#00FF00")].map Prod.fst).Nodup
      ∧ (applyOps initialSession.classes
            ([("Nuclei", "#00FF00")].map (fun p => RegOp.add p.1 p.2))).length
          ≠ initialSession.classes.length + 1 := by
  decide

/-- A run of adds whose names are pairwise distinct and all absent from
the starting registry appends exactly those classes, in order. -/
lemma applyOps_fresh_adds (adds : List (String × String)) :
    ∀ classes : List AnnotationClass,
      (adds.map Prod.fst).Nodup →
      (∀ p ∈ adds, classes.any (fun c => c.name == p.1) = false) →
      applyOps classes (adds.map (fun p => RegOp.add p.1 p.2))
        = classes ++ adds.map (fun p => (⟨p.1, p.2⟩ : AnnotationClass)) := by
  induction adds with
  | nil =>
      intro classes _ _
      simp [applyOps]
  | cons p rest ih =>
      intro classes hnodup hfresh
      have hp : classes.any (fun c => c.name == p.1) = false :=
        hfresh p (List.mem_cons_self p rest)
      have hstep : applyOp classes (RegOp.add p.1 p.2)
          = classes ++ [(⟨p.1, p.2⟩ : AnnotationClass)] := by
        simp [applyOp, addClass, hp]
      have hfresh2 : ∀ q ∈ rest,
          (classes ++ [(⟨p.1, p.2⟩ : AnnotationClass)]).any
            (fun c => c.name == q.1) = false := by
        intro q hq
        have hq1 : classes.any (fun c => c.name == q.1) = false :=
          hfresh q (List.mem_cons_of_mem p hq)
        have hne : (p.1 == q.1) = false := by
          have hpnot : p.1 ∉ rest.map Prod.fst := (List.nodup_cons.mp hnodup).1
          rcases hb : (p.1 == q.1) with _ | _
          · rfl
          · exfalso
            have heq : p.1 = q.1 := by simpa using hb
            apply hpnot
            rw [heq]
            exact List.mem_map_of_mem Prod.fst hq
        simp [List.any_append, hq1, hne]
      have hrest := ih (classes ++ [(⟨p.1, p.2⟩ : AnnotationClass)])
        (List.nodup_cons.mp hnodup).2 hfresh2
      calc applyOps classes ((p :: rest).map (fun q => RegOp.add q.1 q.2))
          = applyOps (applyOp classes (RegOp.add p.1 p.2))
              (rest.map (fun q => RegOp.add q.1 q.2)) := rfl
        _ = applyOps (classes ++ [(⟨p.1, p.2⟩ : AnnotationClass)])
              (rest.map (fun q => RegOp.add q.1 q.2)) := by rw [hstep]
        _ = classes ++ [(⟨p.1, p.2⟩ : AnnotationClass)]
              ++ rest.map (fun q => (⟨q.1, q.2⟩ : AnnotationClass)) := hrest
        _ = classes
              ++ (p :: rest).map (fun q => (⟨q.1, q.2⟩ : AnnotationClass)) := by
            simp

/-- Claim C5 (amended): for adds whose names are pairwise distinct AND
not already present in the starting registry, the final list is the
starting list with the added classes appended at the end in call order,
so its length is the initial length plus the number of adds. -/
theorem adds_fresh_append (classes : List AnnotationClass)
    (adds : List (String × String))
    (hnodup : (adds.map Prod.fst).Nodup)
    (hfresh : ∀ p ∈ adds, classes.any (fun c => c.name == p.1) = false) :
    applyOps classes (adds.map (fun p => RegOp.add p.1 p.2))
        = classes ++ adds.map (fun p => (⟨p.1, p.2⟩ : AnnotationClass))
      ∧ (applyOps classes (adds.map (fun p => RegOp.add p.1 p.2))).length
          = classes.length + adds.length := by
  have h := applyOps_fresh_adds adds classes hnodup hfresh
  refine ⟨h, ?_⟩
  rw [h]
  simp

/-- Witness for the amended C5 on the seeded registry: adding the two
fresh names "Mitochondria" and "Membrane" appends them in order. -/
theorem adds_fresh_append_witness :
    applyOps initialSession.classes
        ([("Mitochondria", "#00FF00"), ("Membrane", "#112233")].map
          (fun p => RegOp.add p.1 p.2))
      = initialSession.classes
          ++ [("Mitochondria", "#00FF00"), ("Membrane", "#112233")].map
              (fun p => (⟨p.1, p.2⟩ : AnnotationClass)) :=
  (adds_fresh_append initialSession.classes
      [("Mitochondria", "#00FF00"), ("Membrane", "#112233")]
      (by decide) (by decide)).1

/-- Filenames of the generated rows are the uploaded files, in order
(in particular there is exactly one row per file). -/
lemma startAnalysisRows_filenames (randInt : Nat → Nat)
    (randUniform : Nat → ℚ) :
    ∀ (files : List String) (i : Nat),
      (startAnalysisRows randInt randUniform i files).map BatchRow.filename
        = files := by
  intro files
  induction files with
  | nil => intro i; rfl
  | cons f rest ih =>
      intro i
      simp only [startAnalysisRows, List.map_cons]
      rw [ih (i + 1)]

/-- Every generated row carries one integer and one real draw from the
random streams. -/
lemma startAnalysisRows_mem (randInt : Nat → Nat) (randUniform : Nat → ℚ) :
    ∀ (files : List String) (i : Nat) (row : BatchRow),
      row ∈ startAnalysisRows randInt randUniform i files →
      ∃ j, row.cell_count = randInt j ∧ row.avg_intensity = randUniform j := by
  intro files
  induction files with
  | nil =>
      intro i row h
      simp [startAnalysisRows] at h
  | cons f rest ih =>
      intro i row h
      rcases List.mem_cons.mp h with h | h
      · exact ⟨i, by rw [h], by rw [h]⟩
      · exact ih (i + 1) row h

/-- Claim C7: with the random streams obeying numpy's contracts
(`randint(50, 200)` draws an integer in `[50, 200)`, `uniform(0.2, 0.9)`
draws a real in `[0.2, 0.9)`), a completed batch run yields exactly one
row per uploaded file carrying that file's name, an integer measurement
in the closed interval `[50, 200]`, and a real measurement in the
closed interval `[0.2, 0.9]`. -/
theorem batch_rows_shape (uploaded_files : List String)
    (randInt : Nat → Nat) (randUniform : Nat → ℚ)
    (hInt : ∀ i, 50 ≤ randInt i ∧ randInt i < 200)
    (hUni : ∀ i, (2 : ℚ)/10 ≤ randUniform i ∧ randUniform i < (9 : ℚ)/10) :
    (startAnalysisRows randInt randUniform 0 uploaded_files).map
        BatchRow.filename = uploaded_files
      ∧ ∀ row ∈ startAnalysisRows randInt randUniform 0 uploaded_files,
          (50 ≤ row.cell_count ∧ row.cell_count ≤ 200)
            ∧ ((2 : ℚ)/10 ≤ row.avg_intensity
                ∧ row.avg_intensity ≤ (9 : ℚ)/10) := by
  refine ⟨startAnalysisRows_filenames randInt randUniform uploaded_files 0, ?_⟩
  intro row hrow
  rcases startAnalysisRows_mem randInt randUniform uploaded_files 0 row hrow
    with ⟨j, hc, ha⟩
  rcases hInt j with ⟨h1, h2⟩
  rcases hUni j with ⟨h3, h4⟩
  exact ⟨⟨by rw [hc]; exact h1, by rw [hc]; exact Nat.le_of_lt h2⟩,
         ⟨by rw [ha]; exact h3, by rw [ha]; exact le_of_lt h4⟩⟩

/-- Witness for C7: constant in-range streams over two files produce
the two filenames in order. -/
theorem batch_rows_shape_witness :
    (startAnalysisRows (fun _ => 100) (fun _ => (1 : ℚ)/2) 0
        ["a.png", "b.png"]).map BatchRow.filename = ["a.png", "b.png"] :=
  (batch_rows_shape ["a.png", "b.png"] (fun _ => 100) (fun _ => (1 : ℚ)/2)
      (fun _ => ⟨by norm_num, by norm_num⟩)
      (fun _ => ⟨by norm_num, by norm_num⟩)).1

/-- Claim C8 counterexample: the Add Class handler checks only for
duplicates, so adding the empty-string name to the seeded registry
succeeds and an empty-named entry enters the registry. -/
theorem add_empty_name_counterexample :
    (applyOp initialSession.classes (RegOp.add "" "#00FF00")).any
        (fun c => c.name == "") = true
      ∧ (applyOp initialSession.classes (RegOp.add "" "#00FF00")).length
          = initialSession.classes.length + 1 := by
  decide

/-- Claim C8 (amended): the add operation enforces only name
uniqueness: it admits a new entry, empty-named or not, exactly when its
name is not already present in the registry. -/
theorem add_checks_only_duplicates (classes : List AnnotationClass)
    (name color : String) :
    addClass classes name color
        = Except.ok (classes ++ [(⟨name, color⟩ : AnnotationClass)])
      ↔ classes.any (fun c => c.name == name) = false := by
  rcases h : classes.any (fun c => c.name == name) with _ | _
  · simp [addClass, h]
  · simp [addClass, h]
